import Mathlib

/-!
Verification of the ResearchAgent repository's client-side code
(`research-client/app/api/research/route.ts`, which bundles two POST proxy
handler variants and the `page.tsx` stream consumer) and, where the backend
source is absent from the repository snapshot, a model of the orchestrator
built from the specification.

Text is represented as `List Char` (the character sequence of a JS string).
-/

namespace ResearchAgent

/-- Shorthand: the character list of a string literal. -/
def lc (s : String) : List Char := s.data

/-- The `\x7b` character (JS object-open brace). -/
def lbrace : Char := Char.ofNat 123

/-- The `\x7d` character (JS object-close brace). -/
def rbrace : Char := Char.ofNat 125

/-- JSON value, the result type of the modelled `JSON.parse`. -/
inductive JVal where
  | jnull : JVal
  | jbool : Bool → JVal
  | jnum : Int → JVal
  | jstr : String → JVal
  | jarr : List JVal → JVal
  | jobj : List (String × JVal) → JVal

/-- JS whitespace characters relevant to JSON and to `String.trim`
(space, newline, tab, carriage return). -/
def isWsChar (c : Char) : Bool := c == ' ' || c == '\n' || c == '\t' || c == '\r'

/-- Drop leading whitespace. -/
def skipWs : List Char → List Char
  | [] => []
  | c :: cs => if isWsChar c then skipWs cs else c :: cs

/-- Supported JSON string escapes (a subset sufficient for this repository's
event lines; `\u` escapes are not modelled). -/
def escChar (c : Char) : Option Char :=
  if c == '\"' then some '\"'
  else if c == '\\' then some '\\'
  else if c == '/' then some '/'
  else if c == 'n' then some '\n'
  else if c == 't' then some '\t'
  else if c == 'r' then some '\r'
  else none

/-- Parse the body of a JSON string after the opening quote; returns the
decoded characters and the input following the closing quote. -/
def parseStrBody : List Char → Option (List Char × List Char)
  | [] => none
  | c :: cs =>
    if c == '\"' then some ([], cs)
    else if c == '\\' then
      match cs with
      | [] => none
      | e :: cs2 =>
        match escChar e with
        | none => none
        | some ec =>
          match parseStrBody cs2 with
          | none => none
          | some (acc, rest) => some (ec :: acc, rest)
    else
      match parseStrBody cs with
      | none => none
      | some (acc, rest) => some (c :: acc, rest)

/-- Split off a maximal run of leading decimal digits. -/
def takeDigits : List Char → (List Char × List Char)
  | [] => ([], [])
  | c :: cs =>
    if c.isDigit then
      let p := takeDigits cs
      (c :: p.1, p.2)
    else ([], c :: cs)

/-- Decimal digits to a natural number. -/
def digitsToNat (ds : List Char) : Nat :=
  ds.foldl (fun a c => a * 10 + (c.toNat - 48)) 0

/-- Parse a JSON integer (optional minus sign then digits). Fractional and
exponent forms are not modelled; no line produced by this system carries
them. -/
def parseNum (cs : List Char) : Option (JVal × List Char) :=
  match cs with
  | c :: rest =>
    if c == '-' then
      match takeDigits rest with
      | ([], _) => none
      | (ds, r) => some (JVal.jnum (-(Int.ofNat (digitsToNat ds))), r)
    else
      match takeDigits cs with
      | ([], _) => none
      | (ds, r) => some (JVal.jnum (Int.ofNat (digitsToNat ds)), r)
  | [] => none

/-- Match a literal character sequence at the head of the input. -/
def stripPre : List Char → List Char → Option (List Char)
  | [], cs => some cs
  | p :: ps, c :: cs => if c == p then stripPre ps cs else none
  | _ :: _, [] => none

/-- Parser request: a value, the fields of an object, or the items of an
array (`allowEnd` permits an immediate closing bracket). -/
inductive PReq where
  | pval : PReq
  | pfields : Bool → PReq
  | pitems : Bool → PReq

/-- Parser production matching `PReq`. -/
inductive POut where
  | oval : JVal → POut
  | ofields : List (String × JVal) → POut
  | oitems : List JVal → POut

/-- Fuel-indexed recursive-descent JSON parser (model of the engine's
`JSON.parse` grammar). Structural recursion on the fuel keeps every
evaluation kernel-reducible. -/
def parseP : Nat → PReq → List Char → Option (POut × List Char)
  | 0, _, _ => none
  | Nat.succ fuel, PReq.pval, cs =>
    match skipWs cs with
    | [] => none
    | c :: rest =>
      if c == lbrace then
        match parseP fuel (PReq.pfields true) rest with
        | some (POut.ofields fs, r) => some (POut.oval (JVal.jobj fs), r)
        | _ => none
      else if c == '[' then
        match parseP fuel (PReq.pitems true) rest with
        | some (POut.oitems xs, r) => some (POut.oval (JVal.jarr xs), r)
        | _ => none
      else if c == '\"' then
        match parseStrBody rest with
        | some (s, r) => some (POut.oval (JVal.jstr (String.mk s)), r)
        | none => none
      else if c == 't' then
        match stripPre (lc "rue") rest with
        | some r => some (POut.oval (JVal.jbool true), r)
        | none => none
      else if c == 'f' then
        match stripPre (lc "alse") rest with
        | some r => some (POut.oval (JVal.jbool false), r)
        | none => none
      else if c == 'n' then
        match stripPre (lc "ull") rest with
        | some r => some (POut.oval JVal.jnull, r)
        | none => none
      else if c == '-' || c.isDigit then
        match parseNum (c :: rest) with
        | some (v, r) => some (POut.oval v, r)
        | none => none
      else none
  | Nat.succ fuel, PReq.pfields allowEnd, cs =>
    match skipWs cs with
    | [] => none
    | c :: rest =>
      if allowEnd && c == rbrace then some (POut.ofields [], rest)
      else if c == '\"' then
        match parseStrBody rest with
        | none => none
        | some (k, r1) =>
          match skipWs r1 with
          | ':' :: r2 =>
            match parseP fuel PReq.pval r2 with
            | some (POut.oval v, r3) =>
              match skipWs r3 with
              | ',' :: r4 =>
                match parseP fuel (PReq.pfields false) r4 with
                | some (POut.ofields fs, r5) =>
                  some (POut.ofields ((String.mk k, v) :: fs), r5)
                | _ => none
              | c2 :: r4 =>
                if c2 == rbrace then some (POut.ofields [(String.mk k, v)], r4)
                else none
              | [] => none
            | _ => none
          | _ => none
      else none
  | Nat.succ fuel, PReq.pitems allowEnd, cs =>
    match skipWs cs with
    | [] => none
    | c :: _rest =>
      if allowEnd && c == ']' then
        match skipWs cs with
        | _ :: r => some (POut.oitems [], r)
        | [] => none
      else
        match parseP fuel PReq.pval cs with
        | some (POut.oval v, r1) =>
          match skipWs r1 with
          | ',' :: r2 =>
            match parseP fuel (PReq.pitems false) r2 with
            | some (POut.oitems xs, r3) => some (POut.oitems (v :: xs), r3)
            | _ => none
          | c2 :: r2 =>
            if c2 == ']' then some (POut.oitems [v], r2) else none
          | [] => none
        | _ => none

/-- Model of `JSON.parse(text)`: parse one JSON value and require only
whitespace to follow; `none` models the thrown `SyntaxError`. -/
def jparse (cs : List Char) : Option JVal :=
  match parseP (2 * cs.length + 8) PReq.pval cs with
  | some (POut.oval v, rest) => if (skipWs rest).isEmpty then some v else none
  | _ => none

/-- First-match field lookup in a parsed JSON object. -/
def lookupField : List (String × JVal) → String → Option JVal
  | [], _ => none
  | (k, v) :: fs, key => if k == key then some v else lookupField fs key

/-- JS property access `v.key` on a parsed value: defined for objects,
`undefined` (here `none`) otherwise. -/
def jfield : JVal → String → Option JVal
  | JVal.jobj fs, k => lookupField fs k
  | _, _ => none

/-- JS strict comparison `v.type === t` for a string literal `t`. -/
def jtypeIs (v : JVal) (t : String) : Bool :=
  match jfield v "type" with
  | some (JVal.jstr s) => s == t
  | _ => false

/-- JS truthiness of a JSON value. -/
def jsTruthy : JVal → Bool
  | JVal.jnull => false
  | JVal.jbool b => b
  | JVal.jnum n => !(n == 0)
  | JVal.jstr s => !(s == "")
  | JVal.jarr _ => true
  | JVal.jobj _ => true

/-- JS truthiness where `none` stands for `undefined`. -/
def jsTruthyOpt : Option JVal → Bool
  | none => false
  | some v => jsTruthy v

/-- JS `a || b` on possibly-undefined values. -/
def jsOrVal (a b : Option JVal) : Option JVal :=
  if jsTruthyOpt a then a else b

/-- Whether a possibly-undefined value is a string (`typeof q === "string"`). -/
def isStringVal : Option JVal → Bool
  | some (JVal.jstr _) => true
  | _ => false

/-! ## The POST proxy handlers (route.ts)

`route.ts` contains two complete handler implementations (an
`API_URL`-based one and a `NEXT_PUBLIC_BACKEND_URL`-based one). Both are
embedded below as total functions of the configured backend URL, the parsed
request body (`Except` error = a rejected `request.json()` with the engine's
message), and the backend fetch outcome. The 10-minute `setTimeout` /
`AbortController` pair is modelled by the `abortErr` outcome: it occurs
exactly when the backend does not complete within `TIMEOUT_MS`. -/

/-- `TIMEOUT_MS` from route.ts: 10 minutes. -/
def TIMEOUT_MS : Nat := 600000

/-- Outcome of `fetch(backend + "/research", {signal})` as observed by the
handler: a 2xx response with a body text, a non-ok response, an abort fired
by the handler's own timeout controller, or another network rejection. -/
inductive FetchOutcome where
  | ok : List Char → FetchOutcome
  | httpErr : Nat → String → List Char → FetchOutcome
  | abortErr : FetchOutcome
  | netErr : String → FetchOutcome

/-- Body of the handler's response: the code only ever produces a single
buffered JSON value (`NextResponse.json`); the `ndjsonStream` form is the
shape a forwarded line-by-line stream would have, and is never built. -/
inductive RespBody where
  | json : JVal → RespBody
  | ndjsonStream : List (List Char) → RespBody

/-- Whether a response body is a streamed sequence of lines. -/
def isStreamBody : RespBody → Bool
  | RespBody.ndjsonStream _ => true
  | RespBody.json _ => false

/-- The handler's observable result: HTTP status, response body, whether a
backend request was issued, and whether the timeout timer was started and
subsequently cleared (`clearTimeout` reached on that path). -/
structure ProxyOut where
  status : Nat
  body : RespBody
  fetched : Bool
  timerStarted : Bool
  timerCleared : Bool

/-- `const { query } = body`: destructuring `null` throws (caught by the
outer catch); otherwise `query` is the property value or `undefined`. -/
def destructureQuery : JVal → Except String (Option JVal)
  | JVal.jnull => Except.error "Cannot destructure property"
  | JVal.jobj fs => Except.ok (lookupField fs "query")
  | _ => Except.ok none

/-- Model of the engine's `SyntaxError` message raised by `response.json()`
on a body that is not a single JSON value. -/
def jsonParseFailMessage : String := "Unexpected non-whitespace character after JSON"

/-- `NextResponse.json({ error: msg })`. -/
def errJson (msg : String) : RespBody :=
  RespBody.json (JVal.jobj [("error", JVal.jstr msg)])

/-- First handler variant in route.ts (the `API_URL` one, lines 1-75),
translated clause by clause. `await response.json()` on the ok path parses
the whole backend body as one JSON value; its failure is caught by the
inner catch (non-`AbortError`), yielding the 502 `Connection Failed` reply. -/
def POSTA (backendUrl : String) (reqBody : Except String JVal)
    (backend : FetchOutcome) : ProxyOut :=
  if backendUrl == "" then
    ProxyOut.mk 500 (errJson "Server Configuration Error: API_URL is missing.") false false false
  else
    match reqBody with
    | Except.error m =>
      ProxyOut.mk 400 (errJson ("Invalid Request: " ++ m)) false false false
    | Except.ok bodyVal =>
      match destructureQuery bodyVal with
      | Except.error m =>
        ProxyOut.mk 400 (errJson ("Invalid Request: " ++ m)) false false false
      | Except.ok q =>
        if !(jsTruthyOpt q) then
          ProxyOut.mk 400 (errJson "Query is required") false false false
        else
          match backend with
          | FetchOutcome.ok body =>
            match jparse body with
            | some d => ProxyOut.mk 200 (RespBody.json d) true true true
            | none =>
              ProxyOut.mk 502 (errJson ("Connection Failed: " ++ jsonParseFailMessage)) true true true
          | FetchOutcome.httpErr st _stx body =>
            ProxyOut.mk st
              (errJson ("Backend Error " ++ toString st ++ ": " ++ String.mk body))
              true true true
          | FetchOutcome.abortErr =>
            ProxyOut.mk 504 (errJson "Request timed out (10m limit)") true true true
          | FetchOutcome.netErr m =>
            ProxyOut.mk 502 (errJson ("Connection Failed: " ++ m)) true true true

/-- Second handler variant in route.ts (the `NEXT_PUBLIC_BACKEND_URL` one,
lines 75-165). Differences from `POSTA`: the query must also be a string,
the non-ok branch re-parses the backend body for an `error` field, the
timeout reply carries `timeout: true`, and non-abort failures return 500. -/
def POSTB (backendUrl : String) (reqBody : Except String JVal)
    (backend : FetchOutcome) : ProxyOut :=
  if backendUrl == "" then
    ProxyOut.mk 500 (errJson "Backend URL not configured") false false false
  else
    match reqBody with
    | Except.error m =>
      ProxyOut.mk 400 (errJson ("Invalid request: " ++ m)) false false false
    | Except.ok bodyVal =>
      match destructureQuery bodyVal with
      | Except.error m =>
        ProxyOut.mk 400 (errJson ("Invalid request: " ++ m)) false false false
      | Except.ok q =>
        if !(jsTruthyOpt q) || !(isStringVal q) then
          ProxyOut.mk 400 (errJson "Query is required and must be a string") false false false
        else
          match backend with
          | FetchOutcome.ok body =>
            match jparse body with
            | some d => ProxyOut.mk 200 (RespBody.json d) true true true
            | none =>
              ProxyOut.mk 500 (errJson ("Network error: " ++ jsonParseFailMessage)) true true true
          | FetchOutcome.httpErr st stx body =>
            let errorData :=
              match jparse body with
              | some d => d
              | none =>
                JVal.jobj [("error", JVal.jstr ("Backend error: " ++ toString st ++ " " ++ stx))]
            let emsg :=
              match jfield errorData "error" with
              | some v =>
                if jsTruthy v then v else JVal.jstr ("Backend returned " ++ toString st)
              | none => JVal.jstr ("Backend returned " ++ toString st)
            ProxyOut.mk st
              (RespBody.json (JVal.jobj [("error", emsg), ("status", JVal.jnum st)]))
              true true true
          | FetchOutcome.abortErr =>
            ProxyOut.mk 504
              (RespBody.json (JVal.jobj
                [("error", JVal.jstr "Request timeout: Backend took longer than 10 minutes to respond"),
                 ("timeout", JVal.jbool true)]))
              true true true
          | FetchOutcome.netErr m =>
            ProxyOut.mk 500 (errJson ("Network error: " ++ m)) true true true

/-! ## The client stream consumer (`handleSubmit` in page.tsx)

The NDJSON reading loop: chunks arrive from `reader.read()`, are appended
to a string buffer, the buffer is split on newlines, the trailing segment
is kept as the new buffer, and every complete non-blank line is parsed and
dispatched.  On end of transport the remaining buffer is flushed through a
slightly different per-line dispatcher (the flush branch has no `log`
case and does not clear `isLoading`).  Inside both dispatchers the whole
body, including the `throw new Error(data.error)` raised for an `error`
event, is enclosed in the `try { ... } catch (parseErr)` that logs a
console warning — so any throw lands in `warnings`, never in `error`. -/

/-- `lines = buffer.split("\n"); buffer = lines.pop() || ""`: the complete
(newline-terminated) lines and the retained trailing fragment. -/
def splitCarry : List Char → List (List Char) × List Char
  | [] => ([], [])
  | c :: rest =>
    let p := splitCarry rest
    if c = '\n' then ([] :: p.1, p.2)
    else
      match p.1 with
      | l :: ls => ((c :: l) :: ls, p.2)
      | [] => ([], c :: p.2)

/-- All segments `buffer.split("\n")` produces, trailing fragment included. -/
def streamLines (cs : List Char) : List (List Char) :=
  (splitCarry cs).1 ++ [(splitCarry cs).2]

/-- `line.trim()` is truthy, i.e. the line has a non-whitespace character. -/
def notBlank (l : List Char) : Bool := !(l.all isWsChar)

/-- The consumer's React state, plus two instrumentation fields:
`warnings` records the lines handed to `console.warn` by the parse catch,
`processed` records every non-blank line the loop dispatched, in order. -/
structure ConsumerState where
  result : Option JVal
  isLoading : Bool
  currentStep : Option JVal
  error : Option String
  warnings : List (List Char)
  processed : List (List Char)

/-- State at the start of the stream loop (`setIsLoading(true)`,
`setError(null)`, `setResult(null)`, `setCurrentStep(null)` have run). -/
def initConsumer : ConsumerState :=
  ConsumerState.mk none true none none [] []

/-- The message of the `Error` constructed from `data.error` when an error
event is thrown (string payloads only; others coerce). -/
def errPayloadMsg (v : JVal) : String :=
  match jfield v "error" with
  | some (JVal.jstr s) => s
  | _ => ""

/-- The body of the per-line `try` block in the streaming loop:
`JSON.parse` then dispatch on `data.type`; `Except.error` is a throw
(either the parse `SyntaxError` or the explicit error-event throw). -/
def processLineCore (st : ConsumerState) (line : List Char) :
    Except String ConsumerState :=
  match jparse line with
  | none => Except.error jsonParseFailMessage
  | some data =>
    if jtypeIs data "log" then
      Except.ok { st with currentStep := jsOrVal (jfield data "node") (jfield data "content") }
    else if jtypeIs data "result" then
      Except.ok { st with result := jfield data "report", isLoading := false }
    else if jtypeIs data "error" then
      Except.error (errPayloadMsg data)
    else
      Except.ok st

/-- One streamed line: skip blank lines, otherwise run the `try` body and
let the `catch (parseErr)` turn any throw into a console warning. -/
def processLine (st : ConsumerState) (line : List Char) : ConsumerState :=
  if notBlank line then
    let st1 := { st with processed := st.processed ++ [line] }
    match processLineCore st1 line with
    | Except.ok st2 => st2
    | Except.error _ => { st1 with warnings := st1.warnings ++ [line] }
  else st

/-- The `try` body of the end-of-stream flush: no `log` case, and the
`result` case does not clear `isLoading`. -/
def flushLineCore (st : ConsumerState) (line : List Char) :
    Except String ConsumerState :=
  match jparse line with
  | none => Except.error jsonParseFailMessage
  | some data =>
    if jtypeIs data "result" then
      Except.ok { st with result := jfield data "report" }
    else if jtypeIs data "error" then
      Except.error (errPayloadMsg data)
    else
      Except.ok st

/-- One flushed line (the caller has already filtered blank lines). -/
def flushLine (st : ConsumerState) (line : List Char) : ConsumerState :=
  let st1 := { st with processed := st.processed ++ [line] }
  match flushLineCore st1 line with
  | Except.ok st2 => st2
  | Except.error _ => { st1 with warnings := st1.warnings ++ [line] }

/-- One `reader.read()` chunk: append to the buffer, split, keep the
trailing fragment, dispatch the complete lines. -/
def chunkStep (acc : ConsumerState × List Char) (chunk : List Char) :
    ConsumerState × List Char :=
  let p := splitCarry (acc.2 ++ chunk)
  (p.1.foldl processLine acc.1, p.2)

/-- The whole reading loop of `handleSubmit` applied to the chunk sequence
delivered by the transport, including the final-buffer flush executed when
`reader.read()` reports `done`. -/
def consumeStream (chunks : List (List Char)) : ConsumerState :=
  let p := chunks.foldl chunkStep (initConsumer, [])
  if notBlank p.2 then
    ((streamLines p.2).filter notBlank).foldl flushLine p.1
  else p.1

/-! ## Orchestrator, Run Driver and channel

Modelled from the spec: the backend sources (`graph.py`, `api.py`, the
`nodes/` package) are not part of this repository snapshot — only their
documentation is — so the state machine of spec §4.1, the error taxonomy of
§7 and the Run Driver channel of §4.3 are embedded from the spec's words.
External capabilities (Planner/Researcher/Critic/Writer outcomes) are
oracle parameters; per §7, any failure that surfaces past the retry
wrapper to the orchestrator is fatal. -/

/-- Modelled from the spec: error classification (§7). -/
inductive EKind where
  | retryable : EKind
  | fatal : EKind

/-- Modelled from the spec: `ErrorInfo` on `RunState` (§3). -/
structure ErrorInfo where
  kind : EKind
  message : String

/-- Modelled from the spec: the research plan (§3). -/
structure Plan where
  subQueries : List String
  searchTerms : List String
  domainFilters : List String

/-- Modelled from the spec: one search hit (§3). -/
structure Hit where
  title : String
  url : String
  content : String
  score : Rat

/-- Modelled from the spec: the most recent search pass (§3). -/
structure ResultSet where
  hits : List Hit
  totalCount : Nat

/-- Modelled from the spec: the Critic's verdict (§3); `isSufficient`
is the quality-threshold comparison. -/
structure Critique where
  qualityScore : Rat
  isSufficient : Bool
  issues : List String

/-- Modelled from the spec: the terminal artifact (§3). -/
structure Report where
  content : String
  sources : List String
  confidence : Rat

/-- Modelled from the spec: `current_node` (§3). -/
inductive NodeTag where
  | planner : NodeTag
  | researcher : NodeTag
  | critic : NodeTag
  | writer : NodeTag
  | done : NodeTag

/-- Modelled from the spec: `RunState` (§3). -/
structure RunState where
  query : String
  plan : Option Plan
  results : Option ResultSet
  critique : Option Critique
  report : Option Report
  iterationCount : Nat
  currentNode : NodeTag
  error : Option ErrorInfo

/-- Modelled from the spec: configuration surface (§6). -/
structure SpecConfig where
  maxIterations : Nat
  qualityThreshold : Rat

/-- Modelled from the spec: node outcomes as oracles. `researcherOut` and
`criticScore` are indexed by the number of Researcher executions already
performed, so refinement passes may differ. -/
structure NodeOracles where
  plannerOut : Except String Plan
  researcherOut : Nat → Except String ResultSet
  criticScore : Nat → Rat
  writerOut : Except String Report

/-- Modelled from the spec: channel items / stream events (§4.3, §6). -/
inductive Event where
  | log : String → String → Event
  | result : Report → Event
  | error : String → Event
  | done : Event

/-- Whether an event is the `done` sentinel. -/
def isDoneEv : Event → Bool
  | Event.done => true
  | _ => false

/-- Result of one orchestrator (or driver) execution: final state, number
of Researcher executions, and the channel items in production (FIFO)
order. -/
structure RunOut where
  state : RunState
  rexecs : Nat
  events : List Event

/-- Modelled from the spec: Writer node (§4.1 rule 4): synthesize the
report; on success `done` with `report`, on fatal failure `done` with
`error`. -/
def writerStep (orc : NodeOracles) (st : RunState) (k : Nat)
    (evs : List Event) : RunOut :=
  match orc.writerOut with
  | Except.error m =>
    RunOut.mk
      { st with error := some (ErrorInfo.mk EKind.fatal m), currentNode := NodeTag.done }
      k (evs ++ [Event.log "writer" "start", Event.error m])
  | Except.ok rep =>
    RunOut.mk
      { st with report := some rep, currentNode := NodeTag.done }
      k (evs ++ [Event.log "writer" "start", Event.log "writer" "end", Event.result rep])

/-- Modelled from the spec: the Researcher-Critic refinement loop
(§4.1 rules 2-3). One pass runs Researcher (replacing `results`), then
Critic; if the critique is sufficient the run proceeds to Writer, else if
`iteration_count < max_iterations` the counter is incremented and the loop
repeats, else the run proceeds to Writer with best-available results.
`k` counts Researcher executions. -/
def loopStep (cfg : SpecConfig) (orc : NodeOracles) (st : RunState) (k : Nat)
    (evs : List Event) : RunOut :=
  match orc.researcherOut k with
  | Except.error m =>
    RunOut.mk
      { st with error := some (ErrorInfo.mk EKind.fatal m), currentNode := NodeTag.done }
      (k + 1) (evs ++ [Event.log "researcher" "start", Event.error m])
  | Except.ok rs =>
    let score := orc.criticScore k
    let crit := Critique.mk score (decide (cfg.qualityThreshold ≤ score)) []
    let st2 := { st with results := some rs, critique := some crit,
                         currentNode := NodeTag.critic }
    let evs2 := evs ++ [Event.log "researcher" "start", Event.log "researcher" "end",
                        Event.log "critic" "start", Event.log "critic" "end"]
    if crit.isSufficient then
      writerStep orc { st2 with currentNode := NodeTag.writer } (k + 1) evs2
    else if st2.iterationCount < cfg.maxIterations then
      loopStep cfg orc
        { st2 with iterationCount := st2.iterationCount + 1,
                   currentNode := NodeTag.researcher }
        (k + 1) evs2
    else
      writerStep orc { st2 with currentNode := NodeTag.writer } (k + 1) evs2
termination_by cfg.maxIterations - st.iterationCount
decreasing_by simp only [RunState.mk.injEq] at *; omega

/-- Modelled from the spec: one orchestrator run (§4.1): Planner, then the
refinement loop, starting from a fresh `RunState` for the query. -/
def runOrchestrator (cfg : SpecConfig) (orc : NodeOracles) (query : String) : RunOut :=
  let st0 := RunState.mk query none none none none 0 NodeTag.planner none
  match orc.plannerOut with
  | Except.error m =>
    RunOut.mk
      { st0 with error := some (ErrorInfo.mk EKind.fatal m), currentNode := NodeTag.done }
      0 [Event.log "planner" "start", Event.error m]
  | Except.ok plan =>
    loopStep cfg orc
      { st0 with plan := some plan, currentNode := NodeTag.researcher } 0
      [Event.log "planner" "start", Event.log "planner" "end"]

/-- Modelled from the spec: the Run Driver (§4.3). It executes the
orchestrator to completion and appends the unconditional `done` sentinel
as the last channel item. Per the §4.3 isolation guarantee the consumer's
read behavior has no channel back to the producer, which is embedded here
by the driver taking the consumer's abandonment point as a parameter it
cannot observe. -/
def runDriver (cfg : SpecConfig) (orc : NodeOracles) (query : String)
    (_consumerAbandonsAfter : Option Nat) : RunOut :=
  let r := runOrchestrator cfg orc query
  RunOut.mk r.state r.rexecs (r.events ++ [Event.done])

/-- Concatenation of the transport chunks: the full character stream. -/
def catChunks : List (List Char) → List Char
  | [] => []
  | c :: cs => c ++ catChunks cs

/-! ## Helper lemmas about line splitting and the consumer fold -/

theorem splitCarry_nil : splitCarry [] = ([], []) := rfl

theorem splitCarry_cons_nl (rest : List Char) :
    splitCarry ('\n' :: rest) = ([] :: (splitCarry rest).1, (splitCarry rest).2) := by
  simp [splitCarry]

theorem splitCarry_cons_of_head (c : Char) (rest : List Char) (l : List Char)
    (ls : List (List Char)) (h : c ≠ '\n') (hsc : (splitCarry rest).1 = l :: ls) :
    splitCarry (c :: rest) = ((c :: l) :: ls, (splitCarry rest).2) := by
  simp [splitCarry, h, hsc]

theorem splitCarry_cons_of_nilhead (c : Char) (rest : List Char)
    (h : c ≠ '\n') (hsc : (splitCarry rest).1 = []) :
    splitCarry (c :: rest) = ([], c :: (splitCarry rest).2) := by
  simp [splitCarry, h, hsc]

theorem splitCarry_append (a b : List Char) :
    splitCarry (a ++ b) =
      ((splitCarry a).1 ++ (splitCarry ((splitCarry a).2 ++ b)).1,
       (splitCarry ((splitCarry a).2 ++ b)).2) := by
  induction a with
  | nil => simp [splitCarry]
  | cons c a ih =>
    by_cases hc : c = '\n'
    · subst hc
      rw [List.cons_append, splitCarry_cons_nl, splitCarry_cons_nl, ih]
      simp
    · rcases hsc : (splitCarry a).1 with _ | ⟨l, ls⟩
      · have h2 : (splitCarry (a ++ b)) = splitCarry ((splitCarry a).2 ++ b) := by
          rw [ih, hsc]; simp
        rw [List.cons_append]
        rw [splitCarry_cons_of_nilhead c a hc hsc]
        dsimp only
        rw [List.cons_append]
        rcases hin : (splitCarry ((splitCarry a).2 ++ b)).1 with _ | ⟨m, ms⟩
        · rw [splitCarry_cons_of_nilhead c (a ++ b) hc (by rw [h2, hin])]
          rw [splitCarry_cons_of_nilhead c ((splitCarry a).2 ++ b) hc hin]
          rw [h2]
          simp
        · rw [splitCarry_cons_of_head c (a ++ b) m ms hc (by rw [h2, hin])]
          rw [splitCarry_cons_of_head c ((splitCarry a).2 ++ b) m ms hc hin]
          rw [h2]
          simp
      · rw [List.cons_append]
        rw [splitCarry_cons_of_head c a l ls hc hsc]
        dsimp only
        have h3 : (splitCarry (a ++ b)).1
            = l :: (ls ++ (splitCarry ((splitCarry a).2 ++ b)).1) := by
          rw [ih, hsc]; simp
        rw [splitCarry_cons_of_head c (a ++ b) _ _ hc h3]
        rw [ih]
        simp

theorem splitCarry_snd_noNl (cs : List Char) :
    ∀ c ∈ (splitCarry cs).2, c ≠ '\n' := by
  induction cs with
  | nil => intro c hc; simp [splitCarry] at hc
  | cons d rest ih =>
    by_cases hd : d = '\n'
    · subst hd; rw [splitCarry_cons_nl]; exact ih
    · rcases hsc : (splitCarry rest).1 with _ | ⟨l, ls⟩
      · rw [splitCarry_cons_of_nilhead d rest hd hsc]
        intro c hc
        rcases List.mem_cons.mp hc with h | h
        · subst h; exact hd
        · exact ih c h
      · rw [splitCarry_cons_of_head d rest l ls hd hsc]
        exact ih

theorem splitCarry_noNl (cs : List Char) (h : ∀ c ∈ cs, c ≠ '\n') :
    splitCarry cs = ([], cs) := by
  induction cs with
  | nil => rfl
  | cons c rest ih =>
    have hc : c ≠ '\n' := h c (List.mem_cons_self c rest)
    have hrest : ∀ x ∈ rest, x ≠ '\n' := fun x hx => h x (List.mem_cons_of_mem c hx)
    rw [splitCarry_cons_of_nilhead c rest hc (by rw [ih hrest])]
    rw [ih hrest]

theorem splitCarry_noNl_append_nl (y : List Char) (h : ∀ c ∈ y, c ≠ '\n') :
    splitCarry (y ++ ['\n']) = ([y], []) := by
  induction y with
  | nil => simp [splitCarry_cons_nl, splitCarry_nil]
  | cons c y ih =>
    have hc : c ≠ '\n' := h c (List.mem_cons_self c y)
    have hy : ∀ x ∈ y, x ≠ '\n' := fun x hx => h x (List.mem_cons_of_mem c hx)
    rw [List.cons_append, splitCarry_cons_of_head c (y ++ ['\n']) y [] hc (by rw [ih hy])]
    rw [ih hy]

theorem splitCarry_append_nl (xs : List Char) :
    splitCarry (xs ++ ['\n']) = ((splitCarry xs).1 ++ [(splitCarry xs).2], []) := by
  rw [splitCarry_append xs ['\n']]
  rw [splitCarry_noNl_append_nl (splitCarry xs).2 (splitCarry_snd_noNl xs)]

theorem catChunks_append (xs ys : List (List Char)) :
    catChunks (xs ++ ys) = catChunks xs ++ catChunks ys := by
  induction xs with
  | nil => simp [catChunks]
  | cons c cs ih => simp [catChunks, ih]

theorem processLineCore_ok_processed (st : ConsumerState) (l : List Char)
    (st2 : ConsumerState) (h : processLineCore st l = Except.ok st2) :
    st2.processed = st.processed ∧ st2.warnings = st.warnings := by
  unfold processLineCore at h
  rcases hj : jparse l with _ | d <;> rw [hj] at h
  · exact absurd h (by simp)
  · by_cases h1 : jtypeIs d "log" <;> by_cases h2 : jtypeIs d "result" <;>
      by_cases h3 : jtypeIs d "error" <;> simp [h1, h2, h3] at h <;>
      rw [← h] <;> exact ⟨rfl, rfl⟩

theorem processLine_processed (st : ConsumerState) (l : List Char) :
    (processLine st l).processed
      = st.processed ++ (if notBlank l then [l] else []) := by
  by_cases hb : notBlank l
  · simp only [processLine, hb, if_true]
    rcases hc : processLineCore { st with processed := st.processed ++ [l] } l with m | st2
    · simp [hc]
    · simp only [hc]
      exact (processLineCore_ok_processed _ _ _ hc).1
  · simp [processLine, hb]

theorem flushLineCore_ok_processed (st : ConsumerState) (l : List Char)
    (st2 : ConsumerState) (h : flushLineCore st l = Except.ok st2) :
    st2.processed = st.processed ∧ st2.warnings = st.warnings := by
  unfold flushLineCore at h
  rcases hj : jparse l with _ | d <;> rw [hj] at h
  · exact absurd h (by simp)
  · by_cases h2 : jtypeIs d "result" <;> by_cases h3 : jtypeIs d "error" <;>
      simp [h2, h3] at h <;> rw [← h] <;> exact ⟨rfl, rfl⟩

theorem flushLine_processed (st : ConsumerState) (l : List Char) :
    (flushLine st l).processed = st.processed ++ [l] := by
  simp only [flushLine]
  rcases hc : flushLineCore { st with processed := st.processed ++ [l] } l with m | st2
  · simp [hc]
  · simp only [hc]
    exact (flushLineCore_ok_processed _ _ _ hc).1

theorem foldl_processLine_processed (ls : List (List Char)) :
    ∀ st : ConsumerState,
      (ls.foldl processLine st).processed = st.processed ++ ls.filter notBlank := by
  induction ls with
  | nil => intro st; simp
  | cons l ls ih =>
    intro st
    rw [List.foldl_cons, ih]
    rw [processLine_processed]
    by_cases hb : notBlank l <;> simp [hb]

theorem foldl_flushLine_processed (ls : List (List Char)) :
    ∀ st : ConsumerState,
      (ls.foldl flushLine st).processed = st.processed ++ ls := by
  induction ls with
  | nil => intro st; simp
  | cons l ls ih =>
    intro st
    rw [List.foldl_cons, ih, flushLine_processed]
    simp

theorem foldl_chunkStep_eq (chunks : List (List Char)) :
    ∀ (st : ConsumerState) (buf : List Char), (∀ c ∈ buf, c ≠ '\n') →
      chunks.foldl chunkStep (st, buf) =
        (((splitCarry (buf ++ catChunks chunks)).1).foldl processLine st,
         (splitCarry (buf ++ catChunks chunks)).2) := by
  induction chunks with
  | nil =>
    intro st buf hb
    simp [catChunks, splitCarry_noNl buf hb]
  | cons c cs ih =>
    intro st buf hb
    rw [List.foldl_cons]
    have hstep : chunkStep (st, buf) c
        = ((splitCarry (buf ++ c)).1.foldl processLine st, (splitCarry (buf ++ c)).2) := rfl
    rw [hstep]
    rw [ih _ _ (splitCarry_snd_noNl (buf ++ c))]
    have hcat : buf ++ catChunks (c :: cs) = (buf ++ c) ++ catChunks cs := by
      simp [catChunks]
    rw [hcat, splitCarry_append (buf ++ c) (catChunks cs), List.foldl_append]

theorem consumeStream_processed (chunks : List (List Char)) :
    (consumeStream chunks).processed
      = (streamLines (catChunks chunks)).filter notBlank := by
  unfold consumeStream
  rw [foldl_chunkStep_eq chunks initConsumer [] (by simp)]
  dsimp only
  rw [List.nil_append]
  have hsnd := splitCarry_snd_noNl (catChunks chunks)
  have hsplit : splitCarry (splitCarry (catChunks chunks)).2
      = ([], (splitCarry (catChunks chunks)).2) := splitCarry_noNl _ hsnd
  by_cases hb : notBlank (splitCarry (catChunks chunks)).2
  · rw [if_pos hb]
    unfold streamLines
    rw [hsplit]
    dsimp only
    rw [List.nil_append]
    have hfil : List.filter notBlank [(splitCarry (catChunks chunks)).2]
        = [(splitCarry (catChunks chunks)).2] := by simp [hb]
    rw [hfil, foldl_flushLine_processed, foldl_processLine_processed]
    simp [List.filter_append, hb, initConsumer]
  · rw [if_neg hb]
    unfold streamLines
    rw [foldl_processLine_processed]
    simp [List.filter_append, hb, initConsumer]

/-! ## Claim theorems: proxy handlers and stream consumer -/

/-- A two-event NDJSON backend body (a `log` event then the `done`
sentinel), as the backend's `/research` endpoint streams it. -/
def twoEventBody : List Char :=
  lc "\x7b\"type\": \"log\", \"node\": \"planner\", \"content\": \"Planning\"\x7d\n\x7b\"type\": \"done\"\x7d\n"

/-- A request body with a valid non-empty string query. -/
def goodReq : Except String JVal :=
  Except.ok (JVal.jobj [("query", JVal.jstr "quantum computing")])

/-- Claim C1: the claim states that the proxy handler forwards the
backend's event sequence as a newline-delimited stream, one JSON event per
line, without buffering the whole backend body. The code instead awaits
`response.json()` on the entire body and replies with one buffered JSON
value; on a two-event NDJSON body that parse fails, so the first variant
replies 502 (`Connection Failed`) and the second 500 (`Network error`),
and neither response is a stream. This evaluates both handlers at that
failing input. -/
theorem proxy_buffers_backend_stream :
    (POSTA "http://backend" goodReq (FetchOutcome.ok twoEventBody)).status = 502
    ∧ isStreamBody (POSTA "http://backend" goodReq (FetchOutcome.ok twoEventBody)).body = false
    ∧ (POSTB "http://backend" goodReq (FetchOutcome.ok twoEventBody)).status = 500
    ∧ isStreamBody (POSTB "http://backend" goodReq (FetchOutcome.ok twoEventBody)).body = false
    ∧ jparse twoEventBody = none :=
  ⟨rfl, rfl, rfl, rfl, rfl⟩

/-- A stream carrying an `error` event followed by the `done` sentinel. -/
def errorEventChunk : List Char :=
  lc "\x7b\"type\": \"error\", \"error\": \"invalid API key\"\x7d\n\x7b\"type\": \"done\"\x7d\n"

/-- Claim C2: the claim states that every received `error` event is
surfaced in the consumer's error state and never degraded to a console
warning. In the code the `throw new Error(data.error)` for an error event
is caught by the enclosing `catch (parseErr)` meant for JSON parse
failures, so the event only reaches `console.warn`: on a stream carrying
an `error` event the final error state is still `none` and the event line
lands in the warnings log. -/
theorem error_event_swallowed_by_parse_catch :
    (consumeStream [errorEventChunk]).error = none
    ∧ (consumeStream [errorEventChunk]).warnings
        = [lc "\x7b\"type\": \"error\", \"error\": \"invalid API key\"\x7d"]
    ∧ (consumeStream [errorEventChunk]).result = none :=
  ⟨rfl, rfl, rfl⟩

/-- Claim C3: an `error` event is non-terminal for the consumer: the
reading loop does not stop at it, and every line after it — up to the end
of the transport — is still processed, in order. For any stream that
contains a complete error-event line, the processed-line log equals the
non-blank lines of the whole stream, and the lines following the error
event form a suffix of it. -/
theorem error_event_is_nonterminal (pre post : List (List Char)) (e : List Char)
    (v : JVal) (_hp : jparse e = some v) (_ht : jtypeIs v "error" = true)
    (_hb : notBlank e = true) :
    (consumeStream (pre ++ [e ++ ['\n']] ++ post)).processed
      = (streamLines ((catChunks pre ++ e ++ ['\n']) ++ catChunks post)).filter notBlank
    ∧ List.IsSuffix ((streamLines (catChunks post)).filter notBlank)
        ((consumeStream (pre ++ [e ++ ['\n']] ++ post)).processed) := by
  have hcat : catChunks (pre ++ [e ++ ['\n']] ++ post)
      = (catChunks pre ++ e ++ ['\n']) ++ catChunks post := by
    rw [catChunks_append, catChunks_append]
    simp [catChunks]
  have h1 : (consumeStream (pre ++ [e ++ ['\n']] ++ post)).processed
      = (streamLines ((catChunks pre ++ e ++ ['\n']) ++ catChunks post)).filter notBlank := by
    rw [consumeStream_processed, hcat]
  refine ⟨h1, ?_⟩
  rw [h1]
  have hnl : splitCarry (catChunks pre ++ e ++ ['\n'])
      = ((splitCarry (catChunks pre ++ e)).1 ++ [(splitCarry (catChunks pre ++ e)).2], []) :=
    splitCarry_append_nl (catChunks pre ++ e)
  have hsp : splitCarry ((catChunks pre ++ e ++ ['\n']) ++ catChunks post)
      = ((splitCarry (catChunks pre ++ e ++ ['\n'])).1 ++ (splitCarry (catChunks post)).1,
         (splitCarry (catChunks post)).2) := by
    rw [splitCarry_append, hnl]; simp
  unfold streamLines
  rw [hsp]
  dsimp only
  refine ⟨((splitCarry (catChunks pre ++ e ++ ['\n'])).1).filter notBlank, ?_⟩
  simp [List.filter_append, List.append_assoc]

/-- Claim C3 witness: an error-event line followed by a `done` line; the
`done` line is still processed. -/
theorem error_event_is_nonterminal_witness :
    jparse (lc "\x7b\"type\": \"error\", \"error\": \"boom\"\x7d")
      = some (JVal.jobj [("type", JVal.jstr "error"), ("error", JVal.jstr "boom")])
    ∧ jtypeIs (JVal.jobj [("type", JVal.jstr "error"), ("error", JVal.jstr "boom")]) "error" = true
    ∧ notBlank (lc "\x7b\"type\": \"error\", \"error\": \"boom\"\x7d") = true
    ∧ (consumeStream ([] ++ [lc "\x7b\"type\": \"error\", \"error\": \"boom\"\x7d" ++ ['\n']]
        ++ [lc "\x7b\"type\": \"done\"\x7d\n"])).processed
      = (streamLines ((catChunks [] ++ lc "\x7b\"type\": \"error\", \"error\": \"boom\"\x7d" ++ ['\n'])
          ++ catChunks [lc "\x7b\"type\": \"done\"\x7d\n"])).filter notBlank := by
  refine ⟨rfl, rfl, rfl, ?_⟩
  exact (error_event_is_nonterminal [] [lc "\x7b\"type\": \"done\"\x7d\n"]
    (lc "\x7b\"type\": \"error\", \"error\": \"boom\"\x7d")
    (JVal.jobj [("type", JVal.jstr "error"), ("error", JVal.jstr "boom")]) rfl rfl rfl).1

/-- Claim C4: the consumer's NDJSON parser (a) dispatches exactly the
non-blank lines of the concatenated transport stream, in arrival order,
one per newline-terminated line with the end-of-stream remainder flushed —
independently of how the stream was cut into chunks; (b) the retained
buffer after any chunk sequence is exactly the trailing fragment after the
last newline; and (c) a non-blank line that is not valid JSON is recorded
as a console warning, changing nothing else, so later lines are still
processed. -/
theorem ndjson_parser_lines_exact :
    (∀ chunks : List (List Char),
        (consumeStream chunks).processed
          = (streamLines (catChunks chunks)).filter notBlank)
    ∧ (∀ chunks : List (List Char),
        (chunks.foldl chunkStep (initConsumer, [])).2
          = (splitCarry (catChunks chunks)).2)
    ∧ (∀ (st : ConsumerState) (l : List Char), notBlank l = true → jparse l = none →
        processLine st l
          = { st with processed := st.processed ++ [l],
                      warnings := st.warnings ++ [l] }) := by
  refine ⟨consumeStream_processed, ?_, ?_⟩
  · intro chunks
    rw [foldl_chunkStep_eq chunks initConsumer [] (by simp)]
    simp
  · intro st l hb hj
    simp [processLine, hb, processLineCore, hj]

/-- Claim C4 witness: a stream cut mid-line, plus an invalid-JSON line. -/
theorem ndjson_parser_lines_exact_witness :
    (consumeStream [lc "\x7b\"type\": \"lo", lc "g\", \"node\": \"planner\"\x7d\n"]).processed
      = (streamLines (catChunks [lc "\x7b\"type\": \"lo", lc "g\", \"node\": \"planner\"\x7d\n"])).filter notBlank
    ∧ notBlank (lc "not json") = true
    ∧ jparse (lc "not json") = none
    ∧ processLine initConsumer (lc "not json")
        = { initConsumer with processed := initConsumer.processed ++ [lc "not json"],
                              warnings := initConsumer.warnings ++ [lc "not json"] } := by
  refine ⟨ndjson_parser_lines_exact.1 _, rfl, rfl, ?_⟩
  exact ndjson_parser_lines_exact.2.2 initConsumer (lc "not json") rfl rfl

/-- Claim C5: a request whose body has no `query` field, or whose `query`
is the empty string, is rejected with HTTP 400 by both handler variants
before any backend request is issued (given a configured backend URL). -/
theorem empty_query_rejected_400 (url : String) (b : JVal) (backend : FetchOutcome)
    (hurl : (url == "") = false)
    (hq : destructureQuery b = Except.ok none
        ∨ destructureQuery b = Except.ok (some (JVal.jstr ""))) :
    (POSTA url (Except.ok b) backend).status = 400
    ∧ (POSTA url (Except.ok b) backend).fetched = false
    ∧ (POSTB url (Except.ok b) backend).status = 400
    ∧ (POSTB url (Except.ok b) backend).fetched = false := by
  rcases hq with h | h <;>
    simp [POSTA, POSTB, hurl, h, jsTruthyOpt, jsTruthy, isStringVal]

/-- Claim C5 witness: a body with no `query` field. -/
theorem empty_query_rejected_400_witness :
    (("http://b" == "") = false)
    ∧ destructureQuery (JVal.jobj []) = Except.ok none
    ∧ (POSTA "http://b" (Except.ok (JVal.jobj [])) FetchOutcome.abortErr).status = 400
    ∧ (POSTA "http://b" (Except.ok (JVal.jobj [])) FetchOutcome.abortErr).fetched = false
    ∧ (POSTB "http://b" (Except.ok (JVal.jobj [])) FetchOutcome.abortErr).status = 400
    ∧ (POSTB "http://b" (Except.ok (JVal.jobj [])) FetchOutcome.abortErr).fetched = false := by
  have h := empty_query_rejected_400 "http://b" (JVal.jobj []) FetchOutcome.abortErr rfl
    (Or.inl rfl)
  exact ⟨rfl, rfl, h.1, h.2.1, h.2.2.1, h.2.2.2⟩

/-- Claim C9 counterexample: the two handler variants are not
behaviorally equivalent. On the same accepted request and the same
non-abort network failure, the first variant replies 502 and the second
500, so they do not return the same HTTP status. -/
theorem handlers_differ_on_network_error :
    (POSTA "http://b" goodReq (FetchOutcome.netErr "ECONNREFUSED")).status = 502
    ∧ (POSTB "http://b" goodReq (FetchOutcome.netErr "ECONNREFUSED")).status = 500
    ∧ ¬((POSTA "http://b" goodReq (FetchOutcome.netErr "ECONNREFUSED")).status
        = (POSTB "http://b" goodReq (FetchOutcome.netErr "ECONNREFUSED")).status) :=
  ⟨rfl, rfl, by decide⟩

/-- Claim C9, amended: the two handler variants agree on the HTTP status
only case by case — both 500 on a missing backend URL, both 400 on an
unreadable request body, both 400 (without fetching) on a falsy query,
and for an accepted string query: 200 on a single-JSON success body, the
backend's own status on a backend HTTP error, and 504 on timeout. They
differ on a non-abort fetch or body-parse failure (first 502, second
500) and on a truthy non-string query (first forwards it, second rejects
with 400); the response message bodies differ throughout. -/
theorem handlers_agreement_amended :
    (∀ req backend, (POSTA "" req backend).status = 500
        ∧ (POSTB "" req backend).status = 500)
    ∧ (∀ (url m : String) (backend : FetchOutcome), (url == "") = false →
        (POSTA url (Except.error m) backend).status = 400
        ∧ (POSTB url (Except.error m) backend).status = 400)
    ∧ (∀ (url : String) (b : JVal) (q : Option JVal) (backend : FetchOutcome),
        (url == "") = false → destructureQuery b = Except.ok q → jsTruthyOpt q = false →
        (POSTA url (Except.ok b) backend).status = 400
        ∧ (POSTA url (Except.ok b) backend).fetched = false
        ∧ (POSTB url (Except.ok b) backend).status = 400
        ∧ (POSTB url (Except.ok b) backend).fetched = false)
    ∧ (∀ (url : String) (b : JVal) (q : Option JVal) (body : List Char) (d : JVal),
        (url == "") = false → destructureQuery b = Except.ok q → jsTruthyOpt q = true →
        isStringVal q = true → jparse body = some d →
        (POSTA url (Except.ok b) (FetchOutcome.ok body)).status = 200
        ∧ (POSTA url (Except.ok b) (FetchOutcome.ok body)).body = RespBody.json d
        ∧ (POSTB url (Except.ok b) (FetchOutcome.ok body)).status = 200
        ∧ (POSTB url (Except.ok b) (FetchOutcome.ok body)).body = RespBody.json d)
    ∧ (∀ (url : String) (b : JVal) (q : Option JVal) (body : List Char),
        (url == "") = false → destructureQuery b = Except.ok q → jsTruthyOpt q = true →
        isStringVal q = true → jparse body = none →
        (POSTA url (Except.ok b) (FetchOutcome.ok body)).status = 502
        ∧ (POSTB url (Except.ok b) (FetchOutcome.ok body)).status = 500)
    ∧ (∀ (url : String) (b : JVal) (q : Option JVal) (st : Nat) (stx : String)
          (body : List Char),
        (url == "") = false → destructureQuery b = Except.ok q → jsTruthyOpt q = true →
        isStringVal q = true →
        (POSTA url (Except.ok b) (FetchOutcome.httpErr st stx body)).status = st
        ∧ (POSTB url (Except.ok b) (FetchOutcome.httpErr st stx body)).status = st)
    ∧ (∀ (url : String) (b : JVal) (q : Option JVal),
        (url == "") = false → destructureQuery b = Except.ok q → jsTruthyOpt q = true →
        isStringVal q = true →
        (POSTA url (Except.ok b) FetchOutcome.abortErr).status = 504
        ∧ (POSTB url (Except.ok b) FetchOutcome.abortErr).status = 504)
    ∧ (∀ (url : String) (b : JVal) (q : Option JVal) (m : String),
        (url == "") = false → destructureQuery b = Except.ok q → jsTruthyOpt q = true →
        isStringVal q = true →
        (POSTA url (Except.ok b) (FetchOutcome.netErr m)).status = 502
        ∧ (POSTB url (Except.ok b) (FetchOutcome.netErr m)).status = 500)
    ∧ (∀ (url : String) (b : JVal) (q : Option JVal) (backend : FetchOutcome),
        (url == "") = false → destructureQuery b = Except.ok q → jsTruthyOpt q = true →
        isStringVal q = false →
        (POSTA url (Except.ok b) backend).fetched = true
        ∧ (POSTB url (Except.ok b) backend).status = 400
        ∧ (POSTB url (Except.ok b) backend).fetched = false) := by
  refine ⟨?_, ?_, ?_, ?_, ?_, ?_, ?_, ?_, ?_⟩
  · intro req backend
    cases req <;> simp [POSTA, POSTB]
  · intro url m backend hurl
    simp [POSTA, POSTB, hurl]
  · intro url b q backend hurl hq ht
    simp [POSTA, POSTB, hurl, hq, ht]
  · intro url b q body d hurl hq ht hs hj
    simp [POSTA, POSTB, hurl, hq, ht, hs, hj]
  · intro url b q body hurl hq ht hs hj
    simp [POSTA, POSTB, hurl, hq, ht, hs, hj]
  · intro url b q st stx body hurl hq ht hs
    simp [POSTA, POSTB, hurl, hq, ht, hs]
  · intro url b q hurl hq ht hs
    simp [POSTA, POSTB, hurl, hq, ht, hs]
  · intro url b q m hurl hq ht hs
    simp [POSTA, POSTB, hurl, hq, ht, hs]
  · intro url b q backend hurl hq ht hs
    cases backend with
    | ok body => cases hj : jparse body <;> simp [POSTA, POSTB, hurl, hq, ht, hs, hj]
    | httpErr st stx body => simp [POSTA, POSTB, hurl, hq, ht, hs]
    | abortErr => simp [POSTA, POSTB, hurl, hq, ht, hs]
    | netErr m => simp [POSTA, POSTB, hurl, hq, ht, hs]

/-- Claim C9 amended-claim witness: the agreed 504-on-timeout case at a
concrete accepted request. -/
theorem handlers_agreement_amended_witness :
    (("http://b" == "") = false)
    ∧ destructureQuery (JVal.jobj [("query", JVal.jstr "q")])
        = Except.ok (some (JVal.jstr "q"))
    ∧ jsTruthyOpt (some (JVal.jstr "q")) = true
    ∧ isStringVal (some (JVal.jstr "q")) = true
    ∧ (POSTA "http://b" (Except.ok (JVal.jobj [("query", JVal.jstr "q")]))
        FetchOutcome.abortErr).status = 504
    ∧ (POSTB "http://b" (Except.ok (JVal.jobj [("query", JVal.jstr "q")]))
        FetchOutcome.abortErr).status = 504 := by
  have h := handlers_agreement_amended.2.2.2.2.2.2.1 "http://b"
    (JVal.jobj [("query", JVal.jstr "q")]) (some (JVal.jstr "q")) rfl rfl rfl rfl
  exact ⟨rfl, rfl, rfl, rfl, h.1, h.2⟩

/-- Claim C10: `TIMEOUT_MS` is 600000 ms; when the backend does not
complete within it, the handler's timeout fires the `AbortController`
(the `abortErr` outcome) and both variants reply 504 with their timeout
error message; and on every fetch path — success, backend error response,
abort, or other network failure — the timer that was started is also
cleared and the handler returns a response (both embeddings are total, so
no unhandled exception escapes). -/
theorem timeout_aborts_504 :
    TIMEOUT_MS = 600000
    ∧ (∀ (url : String) (b : JVal) (q : Option JVal),
        (url == "") = false → destructureQuery b = Except.ok q →
        jsTruthyOpt q = true → isStringVal q = true →
        ((POSTA url (Except.ok b) FetchOutcome.abortErr).status = 504
         ∧ (POSTA url (Except.ok b) FetchOutcome.abortErr).body
             = errJson "Request timed out (10m limit)"
         ∧ (POSTB url (Except.ok b) FetchOutcome.abortErr).status = 504
         ∧ ∀ backend : FetchOutcome,
             (POSTA url (Except.ok b) backend).timerStarted = true
             ∧ (POSTA url (Except.ok b) backend).timerCleared = true
             ∧ (POSTB url (Except.ok b) backend).timerStarted = true
             ∧ (POSTB url (Except.ok b) backend).timerCleared = true)) := by
  refine ⟨rfl, ?_⟩
  intro url b q hurl hq ht hs
  refine ⟨by simp [POSTA, hurl, hq, ht], by simp [POSTA, hurl, hq, ht],
    by simp [POSTB, hurl, hq, ht, hs], ?_⟩
  intro backend
  cases backend with
  | ok body => cases hj : jparse body <;> simp [POSTA, POSTB, hurl, hq, ht, hs, hj]
  | httpErr st stx body => simp [POSTA, POSTB, hurl, hq, ht, hs]
  | abortErr => simp [POSTA, POSTB, hurl, hq, ht, hs]
  | netErr m => simp [POSTA, POSTB, hurl, hq, ht, hs]

/-- Claim C10 witness: a concrete accepted request timing out. -/
theorem timeout_aborts_504_witness :
    (("http://b" == "") = false)
    ∧ destructureQuery (JVal.jobj [("query", JVal.jstr "q")])
        = Except.ok (some (JVal.jstr "q"))
    ∧ (POSTA "http://b" (Except.ok (JVal.jobj [("query", JVal.jstr "q")]))
        FetchOutcome.abortErr).status = 504
    ∧ (POSTB "http://b" (Except.ok (JVal.jobj [("query", JVal.jstr "q")]))
        FetchOutcome.abortErr).status = 504
    ∧ (POSTA "http://b" (Except.ok (JVal.jobj [("query", JVal.jstr "q")]))
        (FetchOutcome.netErr "down")).timerCleared = true := by
  have h := timeout_aborts_504.2 "http://b" (JVal.jobj [("query", JVal.jstr "q")])
    (some (JVal.jstr "q")) rfl rfl rfl rfl
  exact ⟨rfl, rfl, h.1, h.2.2.1, (h.2.2.2 (FetchOutcome.netErr "down")).2.1⟩

/-! ## Helper lemmas about the orchestrator model -/

theorem writerStep_rexecs (orc : NodeOracles) (st : RunState) (k : Nat)
    (evs : List Event) : (writerStep orc st k evs).rexecs = k := by
  cases h : orc.writerOut <;> simp [writerStep, h]

theorem writerStep_iter (orc : NodeOracles) (st : RunState) (k : Nat)
    (evs : List Event) :
    (writerStep orc st k evs).state.iterationCount = st.iterationCount := by
  cases h : orc.writerOut <;> simp [writerStep, h]

theorem writerStep_outcome (orc : NodeOracles) (st : RunState) (k : Nat)
    (evs : List Event) (hrep : st.report = none) (herr : st.error = none) :
    (writerStep orc st k evs).state.currentNode = NodeTag.done
    ∧ (((writerStep orc st k evs).state.report.isSome = true
        ∧ (writerStep orc st k evs).state.error = none)
      ∨ ((writerStep orc st k evs).state.report = none
        ∧ ∃ m, (writerStep orc st k evs).state.error
            = some (ErrorInfo.mk EKind.fatal m))) := by
  cases h : orc.writerOut with
  | error m =>
    refine ⟨by simp [writerStep, h], Or.inr ⟨by simp [writerStep, h, hrep], m, ?_⟩⟩
    simp [writerStep, h]
  | ok rep =>
    exact ⟨by simp [writerStep, h], Or.inl ⟨by simp [writerStep, h], by simp [writerStep, h, herr]⟩⟩

theorem writerStep_no_done (orc : NodeOracles) (st : RunState) (k : Nat)
    (evs : List Event) (h : Event.done ∉ evs) :
    Event.done ∉ (writerStep orc st k evs).events := by
  cases hw : orc.writerOut <;> simp [writerStep, hw, List.mem_append] <;>
    intro hc <;> exact h hc

theorem loopStep_iter_bound (cfg : SpecConfig) (orc : NodeOracles) :
    ∀ (st : RunState) (k : Nat) (evs : List Event),
      st.iterationCount ≤ cfg.maxIterations →
      (loopStep cfg orc st k evs).state.iterationCount ≤ cfg.maxIterations
      ∧ (loopStep cfg orc st k evs).rexecs
          ≤ k + 1 + (cfg.maxIterations - st.iterationCount) := by
  intro st k evs
  induction st, k, evs using loopStep.induct cfg orc with
  | case1 st k evs m hr =>
    intro hle
    rw [loopStep.eq_def, hr]
    dsimp only
    exact ⟨hle, by omega⟩
  | case2 st k evs rs hr score crit hsuff =>
    intro hle
    rw [loopStep.eq_def, hr]
    dsimp only
    have hs : decide (cfg.qualityThreshold ≤ orc.criticScore k) = true := hsuff
    rw [if_pos hs]
    refine ⟨?_, ?_⟩
    · rw [writerStep_iter]; exact hle
    · rw [writerStep_rexecs]; omega
  | case3 st k evs rs hr score crit st2 evs2 hsuff hlt ih =>
    intro hle
    rw [loopStep.eq_def, hr]
    dsimp only
    have hs : ¬(decide (cfg.qualityThreshold ≤ orc.criticScore k) = true) := hsuff
    have hl : st.iterationCount < cfg.maxIterations := hlt
    rw [if_neg hs, if_pos hl]
    have hrec := ih (show st.iterationCount + 1 ≤ cfg.maxIterations by omega)
    refine ⟨hrec.1, ?_⟩
    exact Nat.le_trans hrec.2
      (show k + 1 + 1 + (cfg.maxIterations - (st.iterationCount + 1))
          ≤ k + 1 + (cfg.maxIterations - st.iterationCount) by omega)
  | case4 st k evs rs hr score crit st2 hsuff hge =>
    intro hle
    rw [loopStep.eq_def, hr]
    dsimp only
    have hs : ¬(decide (cfg.qualityThreshold ≤ orc.criticScore k) = true) := hsuff
    have hg : ¬(st.iterationCount < cfg.maxIterations) := hge
    rw [if_neg hs, if_neg hg]
    refine ⟨?_, ?_⟩
    · rw [writerStep_iter]; exact hle
    · rw [writerStep_rexecs]; omega

theorem loopStep_outcome (cfg : SpecConfig) (orc : NodeOracles) :
    ∀ (st : RunState) (k : Nat) (evs : List Event),
      st.report = none → st.error = none →
      (loopStep cfg orc st k evs).state.currentNode = NodeTag.done
      ∧ (((loopStep cfg orc st k evs).state.report.isSome = true
          ∧ (loopStep cfg orc st k evs).state.error = none)
        ∨ ((loopStep cfg orc st k evs).state.report = none
          ∧ ∃ m, (loopStep cfg orc st k evs).state.error
              = some (ErrorInfo.mk EKind.fatal m))) := by
  intro st k evs
  induction st, k, evs using loopStep.induct cfg orc with
  | case1 st k evs m hr =>
    intro hrep herr
    rw [loopStep.eq_def, hr]
    dsimp only
    exact ⟨rfl, Or.inr ⟨hrep, m, rfl⟩⟩
  | case2 st k evs rs hr score crit hsuff =>
    intro hrep herr
    rw [loopStep.eq_def, hr]
    dsimp only
    have hs : decide (cfg.qualityThreshold ≤ orc.criticScore k) = true := hsuff
    rw [if_pos hs]
    exact writerStep_outcome orc _ _ _ hrep herr
  | case3 st k evs rs hr score crit st2 evs2 hsuff hlt ih =>
    intro hrep herr
    rw [loopStep.eq_def, hr]
    dsimp only
    have hs : ¬(decide (cfg.qualityThreshold ≤ orc.criticScore k) = true) := hsuff
    have hl : st.iterationCount < cfg.maxIterations := hlt
    rw [if_neg hs, if_pos hl]
    exact ih hrep herr
  | case4 st k evs rs hr score crit st2 hsuff hge =>
    intro hrep herr
    rw [loopStep.eq_def, hr]
    dsimp only
    have hs : ¬(decide (cfg.qualityThreshold ≤ orc.criticScore k) = true) := hsuff
    have hg : ¬(st.iterationCount < cfg.maxIterations) := hge
    rw [if_neg hs, if_neg hg]
    exact writerStep_outcome orc _ _ _ hrep herr

theorem loopStep_no_done (cfg : SpecConfig) (orc : NodeOracles) :
    ∀ (st : RunState) (k : Nat) (evs : List Event),
      Event.done ∉ evs → Event.done ∉ (loopStep cfg orc st k evs).events := by
  intro st k evs
  induction st, k, evs using loopStep.induct cfg orc with
  | case1 st k evs m hr =>
    intro h
    rw [loopStep.eq_def, hr]
    dsimp only
    simp only [List.mem_append, List.mem_cons]
    intro hc
    rcases hc with hc | hc
    · exact h hc
    · simp at hc
  | case2 st k evs rs hr score crit hsuff =>
    intro h
    rw [loopStep.eq_def, hr]
    dsimp only
    have hs : decide (cfg.qualityThreshold ≤ orc.criticScore k) = true := hsuff
    rw [if_pos hs]
    refine writerStep_no_done orc _ _ _ ?_
    simp only [List.mem_append, List.mem_cons]
    intro hc
    rcases hc with hc | hc
    · exact h hc
    · simp at hc
  | case3 st k evs rs hr score crit st2 evs2 hsuff hlt ih =>
    intro h
    rw [loopStep.eq_def, hr]
    dsimp only
    have hs : ¬(decide (cfg.qualityThreshold ≤ orc.criticScore k) = true) := hsuff
    have hl : st.iterationCount < cfg.maxIterations := hlt
    rw [if_neg hs, if_pos hl]
    refine ih ?_
    show Event.done ∉ evs ++ [Event.log "researcher" "start", Event.log "researcher" "end",
      Event.log "critic" "start", Event.log "critic" "end"]
    simp only [List.mem_append, List.mem_cons]
    intro hc
    rcases hc with hc | hc
    · exact h hc
    · simp at hc
  | case4 st k evs rs hr score crit st2 hsuff hge =>
    intro h
    rw [loopStep.eq_def, hr]
    dsimp only
    have hs : ¬(decide (cfg.qualityThreshold ≤ orc.criticScore k) = true) := hsuff
    have hg : ¬(st.iterationCount < cfg.maxIterations) := hge
    rw [if_neg hs, if_neg hg]
    refine writerStep_no_done orc _ _ _ ?_
    simp only [List.mem_append, List.mem_cons]
    intro hc
    rcases hc with hc | hc
    · exact h hc
    · simp at hc

theorem runOrchestrator_no_done (cfg : SpecConfig) (orc : NodeOracles)
    (q : String) : Event.done ∉ (runOrchestrator cfg orc q).events := by
  unfold runOrchestrator
  cases hp : orc.plannerOut with
  | error m => simp
  | ok plan =>
    dsimp only
    exact loopStep_no_done cfg orc _ _ _ (by simp)

theorem isDoneEv_eq (e : Event) : isDoneEv e = true ↔ e = Event.done := by
  cases e <;> simp [isDoneEv]

/-- Claim C6 (spec-modelled, backend source absent from the snapshot):
for every run of the orchestrator state machine — any configuration, any
node-oracle behavior, any query — the final `iteration_count` never
exceeds `max_iterations`, and the Researcher node executes at most
`max_iterations + 1` times. -/
theorem iteration_count_bounded (cfg : SpecConfig) (orc : NodeOracles) (q : String) :
    (runOrchestrator cfg orc q).state.iterationCount ≤ cfg.maxIterations
    ∧ (runOrchestrator cfg orc q).rexecs ≤ cfg.maxIterations + 1 := by
  unfold runOrchestrator
  cases hp : orc.plannerOut with
  | error m =>
    dsimp only
    exact ⟨Nat.zero_le _, Nat.zero_le _⟩
  | ok plan =>
    dsimp only
    have h := loopStep_iter_bound cfg orc
      { query := q, plan := some plan, results := none, critique := none, report := none,
        iterationCount := 0, currentNode := NodeTag.researcher, error := none } 0
      [Event.log "planner" "start", Event.log "planner" "end"] (Nat.zero_le _)
    exact ⟨h.1, Nat.le_trans h.2 (by omega)⟩

/-- Claim C7 (spec-modelled, backend source absent from the snapshot):
every run reaches the terminal state `done`, and there exactly one of the
two fields `report` and error-with-kind-`fatal` is set: either the report
is present and the error absent, or the report is absent and the error is
present with kind `fatal` — never both, never neither. -/
theorem done_exactly_one_outcome (cfg : SpecConfig) (orc : NodeOracles) (q : String) :
    (runOrchestrator cfg orc q).state.currentNode = NodeTag.done
    ∧ (((runOrchestrator cfg orc q).state.report.isSome = true
        ∧ (runOrchestrator cfg orc q).state.error = none)
      ∨ ((runOrchestrator cfg orc q).state.report = none
        ∧ ∃ m, (runOrchestrator cfg orc q).state.error
            = some (ErrorInfo.mk EKind.fatal m))) := by
  unfold runOrchestrator
  cases hp : orc.plannerOut with
  | error m =>
    dsimp only
    exact ⟨rfl, Or.inr ⟨rfl, m, rfl⟩⟩
  | ok plan =>
    dsimp only
    exact loopStep_outcome cfg orc _ _ _ rfl rfl

/-- Claim C8 (spec-modelled, backend source absent from the snapshot):
for every started run the channel items are produced in FIFO order (the
`events` list is that order), the `done` sentinel is always the last item
and occurs exactly once, and it is produced on success and on fatal error
alike; the consumer's read behavior (here: the point at which it stops
reading) has no channel back to the producer, so the produced sequence is
identical whatever the consumer does. -/
theorem done_sentinel_last (cfg : SpecConfig) (orc : NodeOracles) (q : String)
    (c1 c2 : Option Nat) :
    (runDriver cfg orc q c1).events ≠ []
    ∧ (runDriver cfg orc q c1).events.getLast? = some Event.done
    ∧ ((runDriver cfg orc q c1).events.filter isDoneEv).length = 1
    ∧ runDriver cfg orc q c1 = runDriver cfg orc q c2 := by
  refine ⟨?_, ?_, ?_, rfl⟩
  · show (runOrchestrator cfg orc q).events ++ [Event.done] ≠ []
    simp
  · show ((runOrchestrator cfg orc q).events ++ [Event.done]).getLast? = some Event.done
    exact List.getLast?_concat _
  · show (((runOrchestrator cfg orc q).events ++ [Event.done]).filter isDoneEv).length = 1
    rw [List.filter_append]
    have h1 : List.filter isDoneEv (runOrchestrator cfg orc q).events = [] := by
      apply List.filter_eq_nil_iff.mpr
      intro a ha hcon
      exact runOrchestrator_no_done cfg orc q ((isDoneEv_eq a).mp hcon ▸ ha)
    rw [h1]
    simp [isDoneEv]

end ResearchAgent
